import Mathlib

/-!
Verification of the TCP report generator's core pipeline: XML-derived record
post-processing (power fallback and test-type inference), data validation,
heart-rate zone classification, zone-segment building and merging, and
time-series smoothing/decimation.

Modelling conventions for the JavaScript source:
* JavaScript numbers are modelled as exact rationals (`ℚ`); `NaN` arising from
  a failed `parseFloat` is modelled by `Option ℚ` being `none`.
* A raw spreadsheet cell value (a string, or `undefined` when the column is
  absent) is modelled by the record `JStr` of the observations the source makes
  of it: definedness, emptiness, blankness after trimming, and the numeric
  coercion `parseFloat(String(value).replace(",", "."))`.
* `Math.round` rounds half toward positive infinity, modelled by `jsRound`.
* Thrown `ValidationError`s are modelled with `Except`.
-/

deriving instance DecidableEq for Except

namespace TCP

/-- Observations of a raw JavaScript string-or-undefined cell value:
`defined` is false when the value is `undefined`; `empty` says the value
equals `""`; `blank` says `String(value).trim()` is empty; `num` is
the result of `parseFloat(String(value).replace(",", "."))`, with `none`
standing for `NaN`. -/
structure JStr where
  defined : Bool
  empty : Bool
  blank : Bool
  num : Option ℚ
deriving DecidableEq, Repr

/-- A defined, non-empty numeric string, as produced by `String(number)`. -/
def JStr.ofRat (q : ℚ) : JStr := ⟨true, false, false, some q⟩

/-- An absent (`undefined`) field. -/
def JStr.undef : JStr := ⟨false, false, true, none⟩

/-- A defined, non-empty, non-numeric string (e.g. a patient name). -/
def JStr.text : JStr := ⟨true, false, false, none⟩

/-- JavaScript truthiness of the cell value: a string is truthy iff it is
non-empty, and `undefined` is falsy. -/
def JStr.truthy (s : JStr) : Bool := s.defined && !s.empty

/-- CONFIG.MAX_DATA_POINTS. -/
def MAX_DATA_POINTS : Nat := 10000

/-- CONFIG.MIN_MEASUREMENTS. -/
def MIN_MEASUREMENTS : Nat := 10

/-- CONFIG.VALIDATION.FC_MIN. -/
def FC_MIN : ℚ := 30

/-- CONFIG.VALIDATION.FC_MAX. -/
def FC_MAX : ℚ := 250

/-- CONFIG.VALIDATION.VITESSE_MIN. -/
def VITESSE_MIN : ℚ := 0

/-- CONFIG.VALIDATION.VITESSE_MAX. -/
def VITESSE_MAX : ℚ := 30

/-- CONFIG.VALIDATION.POWER_MIN. -/
def POWER_MIN : ℚ := 0

/-- CONFIG.VALIDATION.POWER_MAX. -/
def POWER_MAX : ℚ := 500

/-- CONFIG.VALIDATION.VO2_MIN. -/
def VO2_MIN : ℚ := 0

/-- CONFIG.VALIDATION.VO2_MAX. -/
def VO2_MAX : ℚ := 10

/-- Patient fields used by validation (`data.patient`). -/
structure Patient where
  nom : JStr
  prenom : JStr
deriving DecidableEq, Repr

/-- A threshold entity (`data.vt1`, `data.vt2`, `data.peakVO2`): raw cell
values for heart rate, speed, power, VO2 and VO2 per kg. -/
structure Thresh where
  fc : JStr
  vitesse : JStr
  power : JStr
  vo2 : JStr
  vo2kg : JStr
deriving DecidableEq, Repr

/-- A measurement row as consumed by the power fallback: the raw `FC` and
`TT` cells of the row. -/
structure Sample where
  fc : JStr
  tt : JStr
deriving DecidableEq, Repr

/-- The intermediate record produced by `parseXMLSafe`'s row walk. -/
structure TestData where
  patient : Patient
  vt1 : Thresh
  vt2 : Thresh
  peakVO2 : Thresh
  measurements : List Sample
  testType : String
deriving DecidableEq, Repr

/-- `safeNum`: numeric coercion with fallback 0 for `NaN`. -/
def safeNum (s : JStr) : ℚ := s.num.getD 0

/-- The individual `ValidationError` messages the validator can push, with
the numeric payloads that the corresponding message strings interpolate. -/
inductive VErr where
  | invalidNum (field : String)
  | outOfRange (field : String) (lo hi v : ℚ)
  | required (field : String)
  | fcOrder (fc2 fc1 : ℚ)
  | powerOrder (p2 p1 : ℚ)
  | speedOrder (v2 v1 : ℚ)
  | tooFew (n minCount : Nat)
  | tooMany (n maxCount : Nat)
deriving DecidableEq, Repr

/-- `validateNumber`: coerce, require a finite number, require it inside
the closed range, and return it; failures are thrown `ValidationError`s. -/
def validateNumber (value : JStr) (lo hi : ℚ) (fieldName : String) : Except VErr ℚ :=
  match value.num with
  | none => .error (.invalidNum fieldName)
  | some num =>
      if num < lo || hi < num then .error (.outOfRange fieldName lo hi num)
      else .ok num

/-- `validateRequiredString`: fail when the value is falsy or blank after
trimming. -/
def validateRequiredString (value : JStr) (fieldName : String) : Except VErr Unit :=
  if !value.truthy || value.blank then .error (.required fieldName) else .ok ()

/-- One `try { ... } catch (e) { errors.push(e.message) }` block: the list of
messages the block contributes. -/
def catchErrs {α : Type} (r : Except VErr α) : List VErr :=
  match r with
  | .error e => [e]
  | .ok _ => []

/-- Errors from the patient-name check. -/
def nomErrs (d : TestData) : List VErr :=
  catchErrs (validateRequiredString d.patient.nom "Nom du patient")

/-- Errors from the patient-surname check. -/
def prenomErrs (d : TestData) : List VErr :=
  catchErrs (validateRequiredString d.patient.prenom "Prénom du patient")

/-- Errors from the vt1 heart-rate range check. -/
def vt1FcErrs (d : TestData) : List VErr :=
  catchErrs (validateNumber d.vt1.fc FC_MIN FC_MAX "V1 FC")

/-- Errors from the sport-appropriate vt1 intensity range check. -/
def vt1IntensityErrs (d : TestData) : List VErr :=
  if d.testType = "bike" then
    catchErrs (validateNumber d.vt1.power POWER_MIN POWER_MAX "V1 Puissance")
  else
    catchErrs (validateNumber d.vt1.vitesse VITESSE_MIN VITESSE_MAX "V1 Vitesse")

/-- Errors from the vt2 heart-rate check: range-validate vt2's heart rate and,
when that succeeds, require it to strictly exceed the coerced vt1 heart rate. -/
def vt2FcErrs (d : TestData) : List VErr :=
  match validateNumber d.vt2.fc FC_MIN FC_MAX "V2 FC" with
  | .error e => [e]
  | .ok fc2 => if fc2 ≤ safeNum d.vt1.fc then [.fcOrder fc2 (safeNum d.vt1.fc)] else []

/-- Errors from the sport-appropriate vt2 intensity check: range-validate the
vt2 intensity and, when that succeeds, require it to strictly exceed the
coerced vt1 intensity. -/
def vt2IntensityErrs (d : TestData) : List VErr :=
  if d.testType = "bike" then
    match validateNumber d.vt2.power POWER_MIN POWER_MAX "V2 Puissance" with
    | .error e => [e]
    | .ok p2 =>
        if p2 ≤ safeNum d.vt1.power then [.powerOrder p2 (safeNum d.vt1.power)] else []
  else
    match validateNumber d.vt2.vitesse VITESSE_MIN VITESSE_MAX "V2 Vitesse" with
    | .error e => [e]
    | .ok v2 =>
        if v2 ≤ safeNum d.vt1.vitesse then [.speedOrder v2 (safeNum d.vt1.vitesse)] else []

/-- Errors from the peak VO2 range check. -/
def peakVo2Errs (d : TestData) : List VErr :=
  catchErrs (validateNumber d.peakVO2.vo2 VO2_MIN VO2_MAX "VO2 Peak")

/-- Errors from the peak VO2-per-kg range check. -/
def peakVo2kgErrs (d : TestData) : List VErr :=
  catchErrs (validateNumber d.peakVO2.vo2kg 0 100 "VO2 Peak/kg")

/-- Errors from the measurement-count lower bound. -/
def countLowErrs (d : TestData) : List VErr :=
  if d.measurements.length < MIN_MEASUREMENTS then
    [.tooFew d.measurements.length MIN_MEASUREMENTS]
  else []

/-- Errors from the measurement-count upper bound. -/
def countHighErrs (d : TestData) : List VErr :=
  if d.measurements.length > MAX_DATA_POINTS then
    [.tooMany d.measurements.length MAX_DATA_POINTS]
  else []

/-- The `errors` array accumulated by `validateParsedData`, in the order
the source pushes the messages. -/
def validationErrors (d : TestData) : List VErr :=
  nomErrs d ++ prenomErrs d ++ vt1FcErrs d ++ vt1IntensityErrs d ++ vt2FcErrs d ++
    vt2IntensityErrs d ++ peakVo2Errs d ++ peakVo2kgErrs d ++ countLowErrs d ++
    countHighErrs d

/-- `validateParsedData`: run every check, accumulate all violations, and
throw one aggregated `ValidationError` carrying the full list when any check
failed; return `true` otherwise. -/
def validateParsedData (d : TestData) : Except (List VErr) Bool :=
  if validationErrors d = [] then .ok true else .error (validationErrors d)

/-- The zone labels. -/
inductive Zone where
  | Z1 | Z2 | Z3 | Z4 | Z5
deriving DecidableEq, Repr

/-- `Math.round`: round half toward positive infinity, i.e. the floor of
`q + 1/2`. -/
def jsRound (q : ℚ) : ℤ := ⌊q + 1 / 2⌋

/-- `zoneOfFc`: classify a heart rate against the two thresholds under the
selected sport-type model (3 zones for "other", 5 zones otherwise). The
source's literal `1.05` is modelled by the exact rational `105 / 100`. -/
def zoneOfFc (fc fc1 fc2 : ℚ) (sportType : String := "endurance") : Zone :=
  if sportType = "other" then
    if fc < fc1 then .Z1
    else if fc < fc2 then .Z2
    else .Z3
  else
    let mid : ℚ := jsRound ((fc1 + fc2) / 2)
    let z4max : ℚ := jsRound (fc2 * (105 / 100))
    if fc < fc1 then .Z1
    else if fc < mid then .Z2
    else if fc < fc2 then .Z3
    else if fc ≤ z4max then .Z4
    else .Z5

/-- Position of a zone in the Z1 < Z2 < Z3 < Z4 < Z5 order. -/
def zoneOrd : Zone → Nat
  | .Z1 => 1
  | .Z2 => 2
  | .Z3 => 3
  | .Z4 => 4
  | .Z5 => 5

/-- A point of the smoothed chart series: the fields of a measurement the
chart logic reads, plus the smoothed channels. -/
structure SPt where
  timeSeconds : ℚ
  vo2 : ℚ
  fc : ℚ
  ve : ℚ
  vo2S : ℚ
  fcS : ℚ
  veS : ℚ
deriving DecidableEq, Repr

/-- `p.fcS || p.fc`: the smoothed heart rate, falling back to the raw one
when the smoothed value is falsy (zero). -/
def fcOf (p : SPt) : ℚ := if p.fcS = 0 then p.fc else p.fcS

/-- A zone segment: a maximal time range sharing one zone label. -/
structure Seg where
  z : Zone
  x1 : ℚ
  x2 : ℚ
deriving DecidableEq, Repr

/-- Time order on chart points. -/
def timeLE (a b : SPt) : Prop := a.timeSeconds ≤ b.timeSeconds

instance : DecidableRel timeLE := fun a b =>
  inferInstanceAs (Decidable (a.timeSeconds ≤ b.timeSeconds))

instance : IsTotal SPt timeLE := ⟨fun a b => le_total a.timeSeconds b.timeSeconds⟩

instance : IsTrans SPt timeLE := ⟨fun _ _ _ h h' => le_trans h h'⟩

/-- The `.sort((a, b) => a.timeSeconds - b.timeSeconds)` step: a stable sort
of the points by elapsed time. -/
def sortByTime (l : List SPt) : List SPt := l.insertionSort timeLE

/-- The segment-scan loop of `buildZoneSegments`: walk the remaining points,
closing the current segment (when non-degenerate) at each zone change, and
closing the final segment at the last point's time. `lastX` carries the time
of the most recently visited point. -/
def segLoop (fc1 fc2 : ℚ) (st : String) : Zone → ℚ → ℚ → List SPt → List Seg
  | curZ, startX, lastX, [] =>
      if startX < lastX then [⟨curZ, startX, lastX⟩] else []
  | curZ, startX, _, p :: rest =>
      let z := zoneOfFc (fcOf p) fc1 fc2 st
      if z ≠ curZ then
        (if startX < p.timeSeconds then [⟨curZ, startX, p.timeSeconds⟩] else []) ++
          segLoop fc1 fc2 st z p.timeSeconds p.timeSeconds rest
      else segLoop fc1 fc2 st curZ startX p.timeSeconds rest

/-- MIN_SEGMENT_DURATION. -/
def MIN_SEGMENT_DURATION : ℚ := 15

/-- The merge loop of `buildZoneSegments`, with the built list kept in
reverse: a segment of sufficient duration is pushed; a short one is merged
into the previous segment by extending that segment's end time, except that
a short segment with no predecessor is pushed as is. -/
def mergeLoop : List Seg → List Seg → List Seg
  | accRev, [] => accRev.reverse
  | accRev, s :: rest =>
      if MIN_SEGMENT_DURATION ≤ s.x2 - s.x1 then mergeLoop (s :: accRev) rest
      else
        match accRev with
        | [] => mergeLoop [s] rest
        | prev :: t => mergeLoop ({ prev with x2 := s.x2 } :: t) rest

/-- The post-pass of `buildZoneSegments` that merges short segments. -/
def mergeShortSegments (segs : List Seg) : List Seg := mergeLoop [] segs

/-- `buildZoneSegments`: sort the points by time, emit one segment per
maximal run of a single zone, then merge short segments. The source's
`Number.isFinite` filter is the identity in this model, where every
JavaScript number is a rational. -/
def buildZoneSegments (cd : List SPt) (fc1 fc2 : ℚ) (st : String) : List Seg :=
  match sortByTime cd with
  | [] => []
  | p0 :: rest =>
      mergeShortSegments
        (segLoop fc1 fc2 st (zoneOfFc (fcOf p0) fc1 fc2 st) p0.timeSeconds p0.timeSeconds rest)

/-- A raw measurement point as fed to `smooth` (after `getExData`): elapsed
time plus the coerced numeric channels. -/
structure Pt where
  timeSeconds : ℚ
  vo2 : ℚ
  fc : ℚ
  ve : ℚ
deriving DecidableEq, Repr

/-- Rounding to two decimals: `Math.round(x * 100) / 100`. -/
def jsRound2 (q : ℚ) : ℚ := (jsRound (q * 100) : ℚ) / 100

/-- Mean of a channel over a window (`win.reduce((a, x) => a + x.c, 0) / win.length`). -/
def avgOf (f : Pt → ℚ) (win : List Pt) : ℚ := (win.map f).sum / win.length

/-- The decimation step of `smooth`: keep every `r`-th sample
(`d.filter((_, i) => i % r === 0)`). -/
def decimate (d : List Pt) (r : Nat) : List Pt :=
  (d.enum.filter (fun ip => ip.1 % r == 0)).map Prod.snd

/-- The per-sample body of `smooth`'s map: a centered moving average over a
window of `w / r / 2` retained samples on each side, clamped to the
sequence bounds; `s.slice(st, en)` is `drop` then `take`. -/
def smoothPoint (w r : Nat) (s : List Pt) (i : Nat) (p : Pt) : SPt :=
  let st := i - w / r / 2
  let en := min s.length (i + w / r / 2)
  let win := (s.drop st).take (en - st)
  { timeSeconds := p.timeSeconds, vo2 := p.vo2, fc := p.fc, ve := p.ve,
    vo2S := jsRound2 (avgOf Pt.vo2 win),
    fcS := (jsRound (avgOf Pt.fc win) : ℚ),
    veS := jsRound2 (avgOf Pt.ve win) }

/-- The long-input path of `smooth`: decimate with stride
`max(1, floor(length / 2000))`, then map each retained sample to its
windowed averages. -/
def smoothMain (d : List Pt) (w : Nat) : List SPt :=
  let r := max 1 (d.length / 2000)
  let s := decimate d r
  s.enum.map fun ip => smoothPoint w r s ip.1 ip.2

/-- `smooth`. The source's short-input branch maps every point through a
callback that reads the identifier `win`, which is not in scope in that
branch; for a non-empty short input the first callback invocation therefore
throws a `ReferenceError`, modelled as `.error`. An empty input never invokes
the callback and yields the empty list. -/
def smooth (d : List Pt) (w : Nat := 30) : Except String (List SPt) :=
  if d.length < w then
    match d with
    | [] => .ok []
    | _ :: _ => .error "ReferenceError: win is not defined"
  else .ok (smoothMain d w)

/-- The test-type inference at the end of `parseXMLSafe`: bike when only
power data is available, run when only speed data is available, and when
both are available, run exactly when either threshold speed coerces to a
strictly positive number. -/
def detectTestType (d : TestData) (hasPowerData hasSpeedData : Bool) : TestData :=
  if hasPowerData && !hasSpeedData then { d with testType := "bike" }
  else if hasSpeedData && !hasPowerData then { d with testType := "run" }
  else if hasPowerData && hasSpeedData then
    if 0 < safeNum d.vt1.vitesse ∨ 0 < safeNum d.vt2.vitesse then
      { d with testType := "run" }
    else { d with testType := "bike" }
  else d

/-- The running state of the power-fallback scan: the best match found so
far and its absolute heart-rate distance for each of vt1, vt2 and peak;
`none` for a distance models `Infinity`. -/
structure FBState where
  vt1Match : Option Sample
  vt2Match : Option Sample
  peakMatch : Option Sample
  vt1Diff : Option ℚ
  vt2Diff : Option ℚ
  peakDiff : Option ℚ
deriving DecidableEq, Repr

/-- The initial power-fallback state: no matches, infinite distances. -/
def FBState.start : FBState := ⟨none, none, none, none, none, none⟩

/-- Strictly-less-than against a possibly infinite bound. -/
def ltInf (a : ℚ) : Option ℚ → Bool
  | none => true
  | some q => decide (a < q)

/-- One iteration of the power-fallback `forEach`: skip rows without a
strictly positive power, otherwise update each of the three running best
matches whose distance and ordering constraints the row satisfies. -/
def fbStep (fc1T fc2T fcPeakT : ℚ) (st : FBState) (m : Sample) : FBState :=
  let fc := safeNum m.fc
  let power := safeNum m.tt
  if power ≤ 0 then st
  else
    let st1 :=
      if ltInf |fc - fc1T| st.vt1Diff && decide (fc ≤ fc1T + 5) then
        { st with vt1Diff := some |fc - fc1T|, vt1Match := some m }
      else st
    let st2 :=
      if ltInf |fc - fc2T| st1.vt2Diff && decide (fc1T ≤ fc) && decide (fc ≤ fc2T + 5) then
        { st1 with vt2Diff := some |fc - fc2T|, vt2Match := some m }
      else st1
    if ltInf |fc - fcPeakT| st2.peakDiff then
      { st2 with peakDiff := some |fc - fcPeakT|, peakMatch := some m }
    else st2

/-- The power fallback of `parseXMLSafe` (lines 267–310): when the summary
table provided no power data, some measurement row carries a non-empty `TT`
cell and all three target heart rates are truthy, scan the measurements for
the best matches, write the matched powers back onto the threshold entities
(`String(safeNum(...))`), and report power data available exactly when both
the vt1 and vt2 matches succeeded. Returns the updated record and the
updated `hasPowerData` flag. -/
def powerFallback (d : TestData) (hasPowerData : Bool) : TestData × Bool :=
  if !hasPowerData && decide (0 < d.measurements.length) then
    let hasTT := d.measurements.any fun m => m.tt.defined && !m.tt.empty
    if hasTT && d.vt1.fc.truthy && d.vt2.fc.truthy && d.peakVO2.fc.truthy then
      let fc1T := safeNum d.vt1.fc
      let fc2T := safeNum d.vt2.fc
      let fcPeakT := safeNum d.peakVO2.fc
      let st := d.measurements.foldl (fbStep fc1T fc2T fcPeakT) FBState.start
      let d1 :=
        match st.vt1Match with
        | some m => { d with vt1 := { d.vt1 with power := JStr.ofRat (safeNum m.tt) } }
        | none => d
      let d2 :=
        match st.vt2Match with
        | some m => { d1 with vt2 := { d1.vt2 with power := JStr.ofRat (safeNum m.tt) } }
        | none => d1
      let d3 :=
        match st.peakMatch with
        | some m => { d2 with peakVO2 := { d2.peakVO2 with power := JStr.ofRat (safeNum m.tt) } }
        | none => d2
      (d3, st.vt1Match.isSome && st.vt2Match.isSome)
    else (d, hasPowerData)
  else (d, hasPowerData)

/-- The tail of `parseXMLSafe` after the row walk: power fallback followed by
test-type inference, starting from the record whose `testType` was set to
"run" at construction. -/
def parseXMLSafePost (d : TestData) (hasSpeedData hasPowerData : Bool) : TestData :=
  let r := powerFallback d hasPowerData
  detectTestType r.1 r.2 hasSpeedData

/-- A record violating the name-presence check and the measurement-count
lower bound, used to witness C2. -/
def c2bad : TestData :=
  { patient := { nom := .undef, prenom := .text }
    vt1 := { fc := .ofRat 120, vitesse := .ofRat 8, power := .undef, vo2 := .undef,
             vo2kg := .undef }
    vt2 := { fc := .ofRat 150, vitesse := .ofRat 12, power := .undef, vo2 := .undef,
             vo2kg := .undef }
    peakVO2 := { fc := .undef, vitesse := .undef, power := .undef, vo2 := .ofRat 3,
                 vo2kg := .ofRat 45 }
    measurements := List.replicate 5 ⟨.undef, .undef⟩
    testType := "run" }

/-- A record whose vt1 and vt2 heart rates are both out of the physiological
range and also misordered (vt2 below vt1). -/
def c1cex : TestData :=
  { patient := { nom := .text, prenom := .text }
    vt1 := { fc := .ofRat 260, vitesse := .ofRat 8, power := .undef, vo2 := .undef,
             vo2kg := .undef }
    vt2 := { fc := .ofRat 255, vitesse := .ofRat 12, power := .undef, vo2 := .undef,
             vo2kg := .undef }
    peakVO2 := { fc := .undef, vitesse := .undef, power := .undef, vo2 := .ofRat 3,
                 vo2kg := .ofRat 45 }
    measurements := List.replicate 10 ⟨.undef, .undef⟩
    testType := "run" }

/-- A fully valid record, for the first part of the C1 witness. -/
def c1ok : TestData :=
  { patient := { nom := .text, prenom := .text }
    vt1 := { fc := .ofRat 120, vitesse := .ofRat 8, power := .undef, vo2 := .undef,
             vo2kg := .undef }
    vt2 := { fc := .ofRat 150, vitesse := .ofRat 12, power := .undef, vo2 := .undef,
             vo2kg := .undef }
    peakVO2 := { fc := .undef, vitesse := .undef, power := .undef, vo2 := .ofRat 3,
                 vo2kg := .ofRat 45 }
    measurements := List.replicate 10 ⟨.undef, .undef⟩
    testType := "run" }

/-- A record with in-range but misordered heart rates, for the second part
of the C1 witness. -/
def c1bad : TestData :=
  { patient := { nom := .text, prenom := .text }
    vt1 := { fc := .ofRat 120, vitesse := .ofRat 8, power := .undef, vo2 := .undef,
             vo2kg := .undef }
    vt2 := { fc := .ofRat 110, vitesse := .ofRat 12, power := .undef, vo2 := .undef,
             vo2kg := .undef }
    peakVO2 := { fc := .undef, vitesse := .undef, power := .undef, vo2 := .ofRat 3,
                 vo2kg := .ofRat 45 }
    measurements := List.replicate 10 ⟨.undef, .undef⟩
    testType := "run" }

/-- A record whose threshold speeds coerce to the valid, non-zero number -1,
with both signals available. -/
def c8cex : TestData :=
  { patient := { nom := .undef, prenom := .undef }
    vt1 := { fc := .undef, vitesse := .ofRat (-1), power := .ofRat 100, vo2 := .undef,
             vo2kg := .undef }
    vt2 := { fc := .undef, vitesse := .ofRat (-1), power := .ofRat 200, vo2 := .undef,
             vo2kg := .undef }
    peakVO2 := { fc := .undef, vitesse := .undef, power := .undef, vo2 := .undef,
                 vo2kg := .undef }
    measurements := []
    testType := "run" }

/-- A record as initialized by `parseXMLSafe` with no summary rows and no
measurements. -/
def c10data : TestData :=
  { patient := { nom := .undef, prenom := .undef }
    vt1 := { fc := .undef, vitesse := .undef, power := .undef, vo2 := .undef, vo2kg := .undef }
    vt2 := { fc := .undef, vitesse := .undef, power := .undef, vo2 := .undef, vo2kg := .undef }
    peakVO2 := { fc := .undef, vitesse := .undef, power := .undef, vo2 := .undef,
                 vo2kg := .undef }
    measurements := []
    testType := "run" }

/-- Duration of a segment. -/
def segDur (s : Seg) : ℚ := s.x2 - s.x1

/-- Contiguity invariant of a scanned segment list: starting from the anchor
time `x`, each segment starts where the previous one ended and is
non-degenerate. -/
def ChainFrom : ℚ → List Seg → Prop
  | _, [] => True
  | x, s :: rest => s.x1 = x ∧ s.x1 < s.x2 ∧ ChainFrom s.x2 rest

/-- A 3999-sample input: below the threshold where the stride exceeds 1. -/
def c7cex : List Pt :=
  (List.range 3999).map fun i : ℕ => { timeSeconds := (i : ℚ), vo2 := 0, fc := 0, ve := 0 }

/-- A 30-sample chronologically ordered input. -/
def c7wit : List Pt :=
  (List.range 30).map fun i : ℕ => { timeSeconds := (i : ℚ), vo2 := 0, fc := 0, ve := 0 }

/-- The vt1 update condition of the power-fallback scan. -/
def fbCond1 (t1 : ℚ) (m : Sample) (o : Option ℚ) : Bool :=
  ltInf |safeNum m.fc - t1| o && decide (safeNum m.fc ≤ t1 + 5)

/-- The vt2 update condition of the power-fallback scan. -/
def fbCond2 (t1 t2 : ℚ) (m : Sample) (o : Option ℚ) : Bool :=
  ltInf |safeNum m.fc - t2| o && decide (t1 ≤ safeNum m.fc) && decide (safeNum m.fc ≤ t2 + 5)

/-- The peak update condition of the power-fallback scan. -/
def fbCond3 (tp : ℚ) (m : Sample) (o : Option ℚ) : Bool :=
  ltInf |safeNum m.fc - tp| o

/-- The ordering constraint of the vt1 match. -/
def fbC1 (t1 : ℚ) (m : Sample) : Bool := decide (safeNum m.fc ≤ t1 + 5)

/-- The ordering constraint of the vt2 match. -/
def fbC2 (t1 t2 : ℚ) (m : Sample) : Bool :=
  decide (t1 ≤ safeNum m.fc) && decide (safeNum m.fc ≤ t2 + 5)

/-- The (absent) ordering constraint of the peak match. -/
def fbC3 : Sample → Bool := fun _ => true

/-- One running best match of the power-fallback scan, in isolation: skip
rows without strictly positive power, otherwise replace the current best
when the update condition holds. -/
def bestStep (target : ℚ) (cond : Sample → Option ℚ → Bool)
    (p : Option Sample × Option ℚ) (m : Sample) : Option Sample × Option ℚ :=
  if safeNum m.tt ≤ 0 then p
  else if cond m p.2 then (some m, some |safeNum m.fc - target|) else p

/-- Invariant of one running best match over a processed prefix: either no
row qualified, or the stored match is a qualifying row of the prefix at the
stored distance, minimal among all qualifying rows of the prefix. -/
def BestInv (target : ℚ) (C : Sample → Bool) (pre : List Sample)
    (p : Option Sample × Option ℚ) : Prop :=
  match p with
  | (none, none) => ∀ m ∈ pre, ¬(0 < safeNum m.tt ∧ C m = true)
  | (some b, some dq) =>
      b ∈ pre ∧ (0 < safeNum b.tt ∧ C b = true) ∧ dq = |safeNum b.fc - target| ∧
        ∀ m ∈ pre, 0 < safeNum m.tt → C m = true → dq ≤ |safeNum m.fc - target|
  | _ => False

/-- A row qualifying for the vt1 match: strictly positive power and heart
rate at most the vt1 target plus the 5 bpm tolerance. -/
def C9qual1 (t1 : ℚ) (m : Sample) : Prop :=
  0 < safeNum m.tt ∧ safeNum m.fc ≤ t1 + 5

/-- A row qualifying for the vt2 match: strictly positive power and heart
rate between the vt1 target and the vt2 target plus the tolerance. -/
def C9qual2 (t1 t2 : ℚ) (m : Sample) : Prop :=
  0 < safeNum m.tt ∧ t1 ≤ safeNum m.fc ∧ safeNum m.fc ≤ t2 + 5

/-- A row qualifying for the peak match: strictly positive power. -/
def C9qual3 (m : Sample) : Prop := 0 < safeNum m.tt

/-- A record with no summary power, per-sample power, and aligned heart
rates, for the C9 witness. -/
def c9data : TestData :=
  { patient := { nom := .undef, prenom := .undef }
    vt1 := { fc := .ofRat 120, vitesse := .undef, power := .undef, vo2 := .undef,
             vo2kg := .undef }
    vt2 := { fc := .ofRat 150, vitesse := .undef, power := .undef, vo2 := .undef,
             vo2kg := .undef }
    peakVO2 := { fc := .ofRat 170, vitesse := .undef, power := .undef, vo2 := .undef,
                 vo2kg := .undef }
    measurements := [⟨.ofRat 118, .ofRat 150⟩, ⟨.ofRat 149, .ofRat 210⟩,
      ⟨.ofRat 171, .ofRat 250⟩]
    testType := "run" }

/-- C3: for every heart rate and thresholds, `zoneOfFc` under sport type
"other" yields Z1 below fc1, Z2 from fc1 up to (excluding) fc2, and Z3 at or
above fc2; under the default "endurance" model, with mid = round((fc1+fc2)/2)
and z4max = round(fc2 * 1.05), it yields Z1 below fc1, then Z2 below mid,
then Z3 below fc2, then Z4 up to and including z4max, and Z5 otherwise. -/
theorem c3_zone_classifier (fc fc1 fc2 : ℚ) :
    (zoneOfFc fc fc1 fc2 "other" =
      if fc < fc1 then Zone.Z1
      else if fc1 ≤ fc ∧ fc < fc2 then Zone.Z2
      else Zone.Z3) ∧
    (zoneOfFc fc fc1 fc2 "endurance" =
      if fc < fc1 then Zone.Z1
      else if fc < (jsRound ((fc1 + fc2) / 2) : ℚ) then Zone.Z2
      else if fc < fc2 then Zone.Z3
      else if fc ≤ (jsRound (fc2 * (105 / 100)) : ℚ) then Zone.Z4
      else Zone.Z5) := by
  constructor
  · have hx : zoneOfFc fc fc1 fc2 "other" =
        if fc < fc1 then Zone.Z1 else if fc < fc2 then Zone.Z2 else Zone.Z3 := by
      simp [zoneOfFc]
    rw [hx]
    by_cases h1 : fc < fc1
    · rw [if_pos h1, if_pos h1]
    · rw [if_neg h1, if_neg h1]
      by_cases h2 : fc < fc2
      · rw [if_pos h2, if_pos ⟨le_of_not_lt h1, h2⟩]
      · rw [if_neg h2, if_neg fun hc => h2 hc.2]
  · simp [zoneOfFc]

/-- C5: for a fixed pair of thresholds and sport type, the zone ordinal
returned by `zoneOfFc` is monotone in the heart rate. -/
theorem c5_zone_monotone (sportType : String) (fc1 fc2 fc fc' : ℚ) (h : fc ≤ fc') :
    zoneOrd (zoneOfFc fc fc1 fc2 sportType) ≤ zoneOrd (zoneOfFc fc' fc1 fc2 sportType) := by
  simp only [zoneOfFc]
  split_ifs <;> simp only [zoneOrd] <;> first | decide | linarith

/-- Witness for C5 at a concrete input. -/
theorem c5_zone_monotone_witness :
    (100 : ℚ) ≤ 160 ∧
      zoneOrd (zoneOfFc 100 120 150 "endurance") ≤ zoneOrd (zoneOfFc 160 120 150 "endurance") :=
  ⟨by norm_num, c5_zone_monotone "endurance" 120 150 100 160 (by norm_num)⟩

/-- Validation succeeds exactly when no check contributed an error. -/
theorem validateParsedData_ok_iff (d : TestData) :
    validateParsedData d = .ok true ↔ validationErrors d = [] := by
  unfold validateParsedData
  split_ifs with h
  · simp [h]
  · simp [h]

/-- The accumulated list is empty exactly when every block is empty. -/
theorem validationErrors_eq_nil_iff (d : TestData) :
    validationErrors d = [] ↔
      nomErrs d = [] ∧ prenomErrs d = [] ∧ vt1FcErrs d = [] ∧ vt1IntensityErrs d = [] ∧
        vt2FcErrs d = [] ∧ vt2IntensityErrs d = [] ∧ peakVo2Errs d = [] ∧
        peakVo2kgErrs d = [] ∧ countLowErrs d = [] ∧ countHighErrs d = [] := by
  simp [validationErrors, List.append_eq_nil, and_assoc]

/-- Unfolding `validateNumber` on an unparsable value. -/
theorem validateNumber_none {s : JStr} {lo hi : ℚ} {f : String} (hn : s.num = none) :
    validateNumber s lo hi f = .error (.invalidNum f) := by
  unfold validateNumber; rw [hn]

/-- Unfolding `validateNumber` on a parsed value. -/
theorem validateNumber_some {s : JStr} {lo hi : ℚ} {f : String} {v : ℚ}
    (hn : s.num = some v) :
    validateNumber s lo hi f =
      if v < lo || hi < v then .error (.outOfRange f lo hi v) else .ok v := by
  unfold validateNumber; rw [hn]

/-- A successful `validateNumber` returns exactly the coerced cell value. -/
theorem validateNumber_ok_num {s : JStr} {lo hi : ℚ} {f : String} {q : ℚ}
    (h : validateNumber s lo hi f = .ok q) : s.num = some q := by
  cases hn : s.num with
  | none => rw [validateNumber_none hn] at h; cases h
  | some v =>
      rw [validateNumber_some hn] at h
      split_ifs at h with hr
      cases h
      rfl

/-- A successful `validateNumber` makes `safeNum` return that value. -/
theorem safeNum_of_validateNumber_ok {s : JStr} {lo hi : ℚ} {f : String} {q : ℚ}
    (h : validateNumber s lo hi f = .ok q) : safeNum s = q := by
  unfold safeNum
  rw [validateNumber_ok_num h]
  rfl

/-- C2: `validateParsedData` either succeeds or fails with a single
aggregated error whose detail list is non-empty and contains every violation
contributed by every individual check (name/surname presence, vt1 heart-rate
range, sport-appropriate vt1/vt2 intensity ranges, vt2 over vt1 ordering for
heart rate and intensity, peak VO2 and VO2/kg ranges, measurement-count
bounds); no check's violations are dropped. -/
theorem c2_error_accumulation (d : TestData) :
    (validateParsedData d = .ok true ↔
      nomErrs d = [] ∧ prenomErrs d = [] ∧ vt1FcErrs d = [] ∧ vt1IntensityErrs d = [] ∧
        vt2FcErrs d = [] ∧ vt2IntensityErrs d = [] ∧ peakVo2Errs d = [] ∧
        peakVo2kgErrs d = [] ∧ countLowErrs d = [] ∧ countHighErrs d = []) ∧
    ∀ l, validateParsedData d = .error l →
      l ≠ [] ∧ ∀ e : VErr,
        (e ∈ nomErrs d ∨ e ∈ prenomErrs d ∨ e ∈ vt1FcErrs d ∨ e ∈ vt1IntensityErrs d ∨
          e ∈ vt2FcErrs d ∨ e ∈ vt2IntensityErrs d ∨ e ∈ peakVo2Errs d ∨
          e ∈ peakVo2kgErrs d ∨ e ∈ countLowErrs d ∨ e ∈ countHighErrs d) → e ∈ l := by
  constructor
  · exact (validateParsedData_ok_iff d).trans (validationErrors_eq_nil_iff d)
  · intro l hl
    rw [validateParsedData] at hl
    split_ifs at hl with h
    cases hl
    refine ⟨h, ?_⟩
    intro e he
    simp only [validationErrors, List.mem_append]
    tauto

/-- Witness for C2: both violations of a doubly invalid record appear in the
aggregated error list. -/
theorem c2_error_accumulation_witness :
    validateParsedData c2bad = .error [.required "Nom du patient", .tooFew 5 10] ∧
    VErr.required "Nom du patient" ∈ [VErr.required "Nom du patient", VErr.tooFew 5 10] ∧
    VErr.tooFew 5 10 ∈ [VErr.required "Nom du patient", VErr.tooFew 5 10] := by
  refine ⟨by decide, ?_, ?_⟩
  · exact ((c2_error_accumulation c2bad).2 _ (by decide)).2 _ (Or.inl (by decide))
  · exact ((c2_error_accumulation c2bad).2 _ (by decide)).2 _
      (Or.inr (Or.inr (Or.inr (Or.inr (Or.inr (Or.inr (Or.inr (Or.inr (Or.inl
        (by decide))))))))))

/-- C1 (amended): a record accepted by `validateParsedData` has its coerced
vt2 heart rate strictly above the coerced vt1 heart rate and its coerced vt2
sport-appropriate intensity strictly above vt1's; and whenever the vt2 value
passes its own parse/range check yet fails to strictly exceed the coerced
vt1 value, validation fails and the aggregated list contains the message
naming both offending values. (When the vt2 value fails its own parse/range
check, only that failure is reported and the ordering message is omitted.) -/
theorem c1_threshold_order (d : TestData) :
    (validateParsedData d = .ok true →
      safeNum d.vt1.fc < safeNum d.vt2.fc ∧
      (d.testType = "bike" → safeNum d.vt1.power < safeNum d.vt2.power) ∧
      (d.testType ≠ "bike" → safeNum d.vt1.vitesse < safeNum d.vt2.vitesse)) ∧
    (∀ fc2, validateNumber d.vt2.fc FC_MIN FC_MAX "V2 FC" = .ok fc2 →
      fc2 ≤ safeNum d.vt1.fc →
      validateParsedData d ≠ .ok true ∧
        VErr.fcOrder fc2 (safeNum d.vt1.fc) ∈ validationErrors d) ∧
    (∀ p2, d.testType = "bike" →
      validateNumber d.vt2.power POWER_MIN POWER_MAX "V2 Puissance" = .ok p2 →
      p2 ≤ safeNum d.vt1.power →
      validateParsedData d ≠ .ok true ∧
        VErr.powerOrder p2 (safeNum d.vt1.power) ∈ validationErrors d) ∧
    (∀ v2, d.testType ≠ "bike" →
      validateNumber d.vt2.vitesse VITESSE_MIN VITESSE_MAX "V2 Vitesse" = .ok v2 →
      v2 ≤ safeNum d.vt1.vitesse →
      validateParsedData d ≠ .ok true ∧
        VErr.speedOrder v2 (safeNum d.vt1.vitesse) ∈ validationErrors d) := by
  refine ⟨?_, ?_, ?_, ?_⟩
  · intro h
    obtain ⟨_, _, _, _, h5, h6, _⟩ :=
      (validationErrors_eq_nil_iff d).mp ((validateParsedData_ok_iff d).mp h)
    refine ⟨?_, ?_, ?_⟩
    · unfold vt2FcErrs at h5
      cases hv : validateNumber d.vt2.fc FC_MIN FC_MAX "V2 FC" with
      | error e => rw [hv] at h5; cases h5
      | ok fc2 =>
          rw [hv] at h5
          dsimp only at h5
          split_ifs at h5 with hle
          rw [safeNum_of_validateNumber_ok hv]
          exact lt_of_not_le hle
    · intro hbike
      unfold vt2IntensityErrs at h6
      rw [if_pos hbike] at h6
      cases hv : validateNumber d.vt2.power POWER_MIN POWER_MAX "V2 Puissance" with
      | error e => rw [hv] at h6; cases h6
      | ok p2 =>
          rw [hv] at h6
          dsimp only at h6
          split_ifs at h6 with hle
          rw [safeNum_of_validateNumber_ok hv]
          exact lt_of_not_le hle
    · intro hrun
      unfold vt2IntensityErrs at h6
      rw [if_neg hrun] at h6
      cases hv : validateNumber d.vt2.vitesse VITESSE_MIN VITESSE_MAX "V2 Vitesse" with
      | error e => rw [hv] at h6; cases h6
      | ok v2 =>
          rw [hv] at h6
          dsimp only at h6
          split_ifs at h6 with hle
          rw [safeNum_of_validateNumber_ok hv]
          exact lt_of_not_le hle
  · intro fc2 hv hle
    have hblock : vt2FcErrs d = [.fcOrder fc2 (safeNum d.vt1.fc)] := by
      unfold vt2FcErrs; rw [hv]; dsimp only; rw [if_pos hle]
    constructor
    · intro hcontra
      have h0 := (validationErrors_eq_nil_iff d).mp ((validateParsedData_ok_iff d).mp hcontra)
      rw [hblock] at h0
      exact absurd h0.2.2.2.2.1 (by simp)
    · simp [validationErrors, hblock]
  · intro p2 hbike hv hle
    have hblock : vt2IntensityErrs d = [.powerOrder p2 (safeNum d.vt1.power)] := by
      unfold vt2IntensityErrs; rw [if_pos hbike, hv]; dsimp only; rw [if_pos hle]
    constructor
    · intro hcontra
      have h0 := (validationErrors_eq_nil_iff d).mp ((validateParsedData_ok_iff d).mp hcontra)
      rw [hblock] at h0
      exact absurd h0.2.2.2.2.2.1 (by simp)
    · simp [validationErrors, hblock]
  · intro v2 hrun hv hle
    have hblock : vt2IntensityErrs d = [.speedOrder v2 (safeNum d.vt1.vitesse)] := by
      unfold vt2IntensityErrs; rw [if_neg hrun, hv]; dsimp only; rw [if_pos hle]
    constructor
    · intro hcontra
      have h0 := (validationErrors_eq_nil_iff d).mp ((validateParsedData_ok_iff d).mp hcontra)
      rw [hblock] at h0
      exact absurd h0.2.2.2.2.2.1 (by simp)
    · simp [validationErrors, hblock]

/-- C1 counterexample: the coerced vt2 heart rate (255) does not exceed the
coerced vt1 heart rate (260) and validation does fail, but the error list
holds only the two range messages, not a message naming both values: the
ordering check is skipped when vt2's own range check fails. -/
theorem c1_counterexample :
    safeNum c1cex.vt2.fc ≤ safeNum c1cex.vt1.fc ∧
    validateParsedData c1cex =
      .error [.outOfRange "V1 FC" FC_MIN FC_MAX 260, .outOfRange "V2 FC" FC_MIN FC_MAX 255] ∧
    VErr.fcOrder (safeNum c1cex.vt2.fc) (safeNum c1cex.vt1.fc) ∉
      [VErr.outOfRange "V1 FC" FC_MIN FC_MAX 260, VErr.outOfRange "V2 FC" FC_MIN FC_MAX 255] :=
  ⟨by decide, by decide, by decide⟩

/-- Witness for C1 at concrete inputs: a valid record satisfies the strict
threshold ordering, and a misordered record fails with the message naming
both values. -/
theorem c1_threshold_order_witness :
    validateParsedData c1ok = .ok true ∧
    safeNum c1ok.vt1.fc < safeNum c1ok.vt2.fc ∧
    validateNumber c1bad.vt2.fc FC_MIN FC_MAX "V2 FC" = .ok 110 ∧
    (110 : ℚ) ≤ safeNum c1bad.vt1.fc ∧
    validateParsedData c1bad ≠ .ok true ∧
    VErr.fcOrder 110 (safeNum c1bad.vt1.fc) ∈ validationErrors c1bad := by
  refine ⟨by decide, ((c1_threshold_order c1ok).1 (by decide)).1, by decide, by decide, ?_, ?_⟩
  · exact ((c1_threshold_order c1bad).2.1 110 (by decide) (by decide)).1
  · exact ((c1_threshold_order c1bad).2.1 110 (by decide) (by decide)).2

/-- C8 (amended): the test-type inference of `parseXMLSafe` as one equation:
bike when only power data is available, run when only speed data is
available; when both are available, run exactly when either threshold speed
coerces to a strictly positive number (so zero, negative and unparsable
speeds all select bike), and no change when neither is available. -/
theorem c8_test_type_inference (d : TestData) (hasPowerData hasSpeedData : Bool) :
    (detectTestType d hasPowerData hasSpeedData).testType =
      if hasPowerData && !hasSpeedData then "bike"
      else if hasSpeedData && !hasPowerData then "run"
      else if hasPowerData && hasSpeedData then
        if 0 < safeNum d.vt1.vitesse ∨ 0 < safeNum d.vt2.vitesse then "run" else "bike"
      else d.testType := by
  unfold detectTestType
  split_ifs <;> rfl

/-- C8 counterexample: with both signals available and both threshold speeds
coercing to -1 — neither zero nor invalid — the claim predicts "run", but
the code sets "bike" because it tests for strictly positive speeds. -/
theorem c8_counterexample :
    c8cex.vt1.vitesse.num = some (-1) ∧ c8cex.vt2.vitesse.num = some (-1) ∧
    safeNum c8cex.vt1.vitesse ≠ 0 ∧ safeNum c8cex.vt2.vitesse ≠ 0 ∧
    (detectTestType c8cex true true).testType = "bike" :=
  ⟨rfl, rfl, by decide, by decide, by decide⟩

/-- The power fallback never changes the test type. -/
theorem powerFallback_testType (d : TestData) (hp : Bool) :
    ((powerFallback d hp).1).testType = d.testType := by
  unfold powerFallback
  dsimp only
  split_ifs <;> try rfl
  cases (d.measurements.foldl
      (fbStep (safeNum d.vt1.fc) (safeNum d.vt2.fc) (safeNum d.peakVO2.fc))
      FBState.start).vt1Match <;>
    cases (d.measurements.foldl
        (fbStep (safeNum d.vt1.fc) (safeNum d.vt2.fc) (safeNum d.peakVO2.fc))
        FBState.start).vt2Match <;>
      cases (d.measurements.foldl
          (fbStep (safeNum d.vt1.fc) (safeNum d.vt2.fc) (safeNum d.peakVO2.fc))
          FBState.start).peakMatch <;>
        rfl

/-- C10: when neither a speed row nor a power row appeared in the summary
section and the power fallback did not mark power data available, the
record's initialized test type "run" is left unchanged. -/
theorem c10_default_test_type (d : TestData)
    (hrun : d.testType = "run")
    (hfb : (powerFallback d false).2 = false) :
    (parseXMLSafePost d false false).testType = "run" := by
  unfold parseXMLSafePost detectTestType
  dsimp only
  rw [hfb]
  simp only [Bool.false_and, Bool.and_false, Bool.false_eq_true, if_false]
  rw [powerFallback_testType]
  exact hrun

/-- Witness for C10 at a concrete input. -/
theorem c10_default_test_type_witness :
    c10data.testType = "run" ∧ (powerFallback c10data false).2 = false ∧
    (parseXMLSafePost c10data false false).testType = "run" :=
  ⟨rfl, by decide, c10_default_test_type c10data rfl (by decide)⟩

/-- C6: evaluating `smooth` on a non-empty input shorter than the smoothing
window throws (the branch reads the undefined identifier `win`); it does not
return the globally averaged same-length sequence the specification
describes. -/
theorem c6_short_input_throws :
    smooth [{ timeSeconds := 0, vo2 := 1, fc := 100, ve := 20 }] 30 =
      .error "ReferenceError: win is not defined" := rfl

/-- The segment scan produces a contiguous chain of non-degenerate segments
anchored at the running start time, provided the points are sorted and all
lie at or after the last visited time. -/
theorem segLoop_chain (fc1 fc2 : ℚ) (st : String) (pts : List SPt) :
    ∀ (curZ : Zone) (startX lastX : ℚ),
      startX ≤ lastX → (∀ p ∈ pts, lastX ≤ p.timeSeconds) → pts.Pairwise timeLE →
      ChainFrom startX (segLoop fc1 fc2 st curZ startX lastX pts) := by
  induction pts with
  | nil =>
      intro curZ startX lastX h1 _ _
      unfold segLoop
      split_ifs with hlt
      · exact ⟨rfl, hlt, trivial⟩
      · trivial
  | cons p rest ih =>
      intro curZ startX lastX h1 h2 h3
      have hpl : lastX ≤ p.timeSeconds := h2 p (List.mem_cons_self _ _)
      have hrest : ∀ q ∈ rest, p.timeSeconds ≤ q.timeSeconds :=
        fun q hq => (List.pairwise_cons.mp h3).1 q hq
      have h3' : rest.Pairwise timeLE := (List.pairwise_cons.mp h3).2
      unfold segLoop
      dsimp only
      split_ifs with hz hpush
      · exact ⟨rfl, hpush, ih _ _ _ le_rfl hrest h3'⟩
      · have heq : p.timeSeconds = startX := le_antisymm (not_lt.mp hpush) (h1.trans hpl)
        rw [List.nil_append, heq]
        exact ih _ _ _ le_rfl (fun q hq => heq ▸ hrest q hq) h3'
      · exact ih _ _ _ (h1.trans hpl) hrest h3'

/-- The tail of a reversed list is the reversed `dropLast`. -/
theorem reverse_tail_eq_dropLast_reverse {α : Type} (l : List α) :
    l.reverse.tail = l.dropLast.reverse := by
  induction l using List.reverseRecOn with
  | nil => rfl
  | append_singleton l a _ => simp

/-- The merge loop of `buildZoneSegments` makes every built segment except
the first at least `MIN_SEGMENT_DURATION` long, given a chained input and a
partially built stack whose non-first entries are already long and whose top
ends at the input's anchor. -/
theorem mergeLoop_tail_long :
    ∀ (rest accRev : List Seg) (c : ℚ),
      ChainFrom c rest →
      (∀ s ∈ accRev.dropLast, MIN_SEGMENT_DURATION ≤ segDur s) →
      (∀ prev t, accRev = prev :: t → prev.x2 = c) →
      ∀ s ∈ (mergeLoop accRev rest).tail, MIN_SEGMENT_DURATION ≤ segDur s := by
  intro rest
  induction rest with
  | nil =>
      intro accRev c _ hdrop _ s hs
      unfold mergeLoop at hs
      rw [reverse_tail_eq_dropLast_reverse] at hs
      exact hdrop s (List.mem_reverse.mp hs)
  | cons a rest ih =>
      intro accRev c hch hdrop hlink s hs
      obtain ⟨ha1, ha2, hch'⟩ := hch
      unfold mergeLoop at hs
      split_ifs at hs with hlong
      · refine ih (a :: accRev) a.x2 hch' ?_ (by intro prev t h; cases h; rfl) s hs
        intro x hx
        cases accRev with
        | nil => cases hx
        | cons b t =>
            rw [List.dropLast_cons₂] at hx
            rcases List.mem_cons.mp hx with h | h
            · exact h ▸ hlong
            · exact hdrop x h
      · cases accRev with
        | nil =>
            exact ih [a] a.x2 hch' (by intro x hx; cases hx)
              (by intro prev t h; cases h; rfl) s hs
        | cons prev t =>
            have hpx : prev.x2 = c := hlink prev t rfl
            refine ih _ a.x2 hch' ?_ (by intro p2 t2 h; cases h; rfl) s hs
            intro x hx
            cases t with
            | nil => cases hx
            | cons b t2 =>
                rw [List.dropLast_cons₂] at hx
                rcases List.mem_cons.mp hx with h | h
                · have hprev : MIN_SEGMENT_DURATION ≤ segDur prev :=
                    hdrop prev (by rw [List.dropLast_cons₂]; exact List.mem_cons_self _ _)
                  subst h
                  unfold segDur at *
                  dsimp only at *
                  linarith
                · exact hdrop x (by rw [List.dropLast_cons₂]; exact List.mem_cons_of_mem _ h)

/-- The merge loop leaves a list of sufficiently long segments untouched,
appending it to the stack. -/
theorem mergeLoop_all_long :
    ∀ (rest accRev : List Seg),
      (∀ s ∈ rest, MIN_SEGMENT_DURATION ≤ segDur s) →
      mergeLoop accRev rest = accRev.reverse ++ rest := by
  intro rest
  induction rest with
  | nil => intro accRev _; unfold mergeLoop; simp
  | cons a rest ih =>
      intro accRev h
      unfold mergeLoop
      rw [if_pos (show MIN_SEGMENT_DURATION ≤ a.x2 - a.x1 from h a (List.mem_cons_self _ _))]
      rw [ih (a :: accRev) fun s hs => h s (List.mem_cons_of_mem _ hs)]
      simp

/-- A segment list whose non-first segments are long is a fixed point of the
merge pass. -/
theorem mergeShortSegments_of_tail_long {segs : List Seg}
    (h : ∀ s ∈ segs.tail, MIN_SEGMENT_DURATION ≤ segDur s) :
    mergeShortSegments segs = segs := by
  cases segs with
  | nil => rfl
  | cons a rest =>
      unfold mergeShortSegments mergeLoop
      split_ifs with hlong
      · rw [mergeLoop_all_long rest [a] h]; rfl
      · rw [mergeLoop_all_long rest [a] h]; rfl

/-- C4: re-running the short-segment merge pass on the output of
`buildZoneSegments` yields the identical list, and every output segment
except possibly the first lasts at least 15 seconds. -/
theorem c4_segment_merge (cd : List SPt) (fc1 fc2 : ℚ) (st : String) :
    mergeShortSegments (buildZoneSegments cd fc1 fc2 st) = buildZoneSegments cd fc1 fc2 st ∧
    ∀ s ∈ (buildZoneSegments cd fc1 fc2 st).tail,
      MIN_SEGMENT_DURATION ≤ s.x2 - s.x1 := by
  have htail : ∀ s ∈ (buildZoneSegments cd fc1 fc2 st).tail,
      MIN_SEGMENT_DURATION ≤ segDur s := by
    intro s hmem
    unfold buildZoneSegments at hmem
    rcases hs : sortByTime cd with _ | ⟨p0, rest⟩ <;> rw [hs] at hmem
    · cases hmem
    · dsimp only at hmem
      have hsorted : (p0 :: rest).Pairwise timeLE := by
        rw [← hs]
        exact List.sorted_insertionSort timeLE cd
      have hchain := segLoop_chain fc1 fc2 st rest (zoneOfFc (fcOf p0) fc1 fc2 st)
        p0.timeSeconds p0.timeSeconds le_rfl
        (fun q hq => (List.pairwise_cons.mp hsorted).1 q hq)
        (List.pairwise_cons.mp hsorted).2
      exact mergeLoop_tail_long _ [] p0.timeSeconds hchain
        (by intro x hx; cases hx) (by intro prev t h; cases h) s hmem
  exact ⟨mergeShortSegments_of_tail_long htail, htail⟩

/-- Filtering an enumeration on the index is the same as filtering the index
range. -/
theorem filter_enumFrom_length {α : Type} (p : Nat → Bool) (d : List α) :
    ∀ k : Nat,
      ((d.enumFrom k).filter fun ip => p ip.1).length =
        ((List.range' k d.length).filter p).length := by
  induction d with
  | nil => intro k; rfl
  | cons a d ih =>
      intro k
      rw [List.enumFrom_cons, List.length_cons, List.range'_succ]
      simp only [List.filter_cons]
      cases hp : p k <;> simp [hp, ih]

/-- The count of multiples of `r` below `n`. -/
theorem length_filter_mod_range (r : Nat) (hr : 0 < r) :
    ∀ n : Nat, ((List.range n).filter fun i => i % r == 0).length = (n + r - 1) / r := by
  intro n
  induction n with
  | zero => simp [Nat.div_eq_of_lt (by omega : r - 1 < r)]
  | succ n ih =>
      rw [List.range_succ, List.filter_append, List.length_append, ih]
      have key : (n + r) / r = (n + r - 1) / r + (if n % r = 0 then 1 else 0) := by
        by_cases h : n % r = 0
        · rw [if_pos h]
          obtain ⟨q, rfl⟩ := Nat.dvd_of_mod_eq_zero h
          have e1 : (r * q + r) / r = q + 1 := by
            rw [Nat.mul_add_div hr, Nat.div_self hr]
          have e2 : (r * q + r - 1) / r = q := by
            rw [show r * q + r - 1 = r * q + (r - 1) by omega, Nat.mul_add_div hr,
              Nat.div_eq_of_lt (by omega)]
            omega
          omega
        · rw [if_neg h]
          have hq := Nat.div_add_mod n r
          have hsr : n % r < r := Nat.mod_lt _ hr
          have hx1 : (n % r + r) / r = 1 := Nat.div_eq_of_lt_le (by omega) (by omega)
          have hx2 : (n % r + r - 1) / r = 1 := Nat.div_eq_of_lt_le (by omega) (by omega)
          have e1 : (n + r) / r = n / r + 1 := by
            rw [show n + r = r * (n / r) + (n % r + r) by omega, Nat.mul_add_div hr, hx1]
          have e2 : (n + r - 1) / r = n / r + 1 := by
            rw [show n + r - 1 = r * (n / r) + (n % r + r - 1) by omega, Nat.mul_add_div hr, hx2]
          omega
      have hfil : ((List.filter (fun i => i % r == 0) [n])).length =
          if n % r = 0 then 1 else 0 := by
        by_cases h : n % r = 0 <;> simp [List.filter_cons, h]
      rw [hfil, show n + 1 + r - 1 = n + r by omega, key]

/-- Length of the decimated list. -/
theorem decimate_length (d : List Pt) (r : Nat) (hr : 0 < r) :
    (decimate d r).length = (d.length + r - 1) / r := by
  unfold decimate
  rw [List.length_map]
  have h := filter_enumFrom_length (fun i => i % r == 0) d 0
  rw [List.enum_eq_enumFrom] at *
  rw [h, ← List.range_eq_range', length_filter_mod_range r hr]

/-- Decimation keeps a subsequence of the input. -/
theorem decimate_sublist (d : List Pt) (r : Nat) : List.Sublist (decimate d r) d := by
  unfold decimate
  have h1 : List.Sublist (d.enum.filter fun ip => ip.1 % r == 0) d.enum :=
    List.filter_sublist _
  have h2 := h1.map Prod.snd
  rwa [List.enum_map_snd] at h2

/-- Stride 1 keeps every sample. -/
theorem decimate_one (d : List Pt) : decimate d 1 = d := by
  unfold decimate
  rw [List.filter_eq_self.mpr fun a _ => by simp [Nat.mod_one], List.enum_map_snd]

/-- The smoothing map produces exactly one output point per retained
sample. -/
theorem smoothMain_length (d : List Pt) (w : Nat) :
    (smoothMain d w).length = (decimate d (max 1 (d.length / 2000))).length := by
  unfold smoothMain
  rw [List.length_map, List.enum_length]

/-- The smoothing map keeps each retained sample's elapsed time. -/
theorem map_time_smoothPoint (w r : Nat) (s : List Pt) (l : List (Nat × Pt)) :
    ((l.map fun ip => smoothPoint w r s ip.1 ip.2).map fun q => q.timeSeconds) =
      (l.map Prod.snd).map fun p => p.timeSeconds := by
  rw [List.map_map, List.map_map]
  rfl

/-- The output times of `smoothMain` are the retained samples' times. -/
theorem smoothMain_times (d : List Pt) (w : Nat) :
    ((smoothMain d w).map fun q => q.timeSeconds) =
      ((decimate d (max 1 (d.length / 2000))).map fun p => p.timeSeconds) := by
  unfold smoothMain
  rw [map_time_smoothPoint, List.enum_map_snd]

/-- C7 (amended): for an input of at least the window length, `smooth` takes
the long path, returns one output point per retained sample of the
stride-`max(1, floor(n/2000))` decimation, preserves chronological order,
and the output never exceeds 3999 points (the sharp bound; 2000 is only
approached once the input reaches 4000 samples). -/
theorem c7_decimation (d : List Pt)
    (hlen : 30 ≤ d.length)
    (hsorted : d.Pairwise fun a b => a.timeSeconds ≤ b.timeSeconds) :
    smooth d 30 = .ok (smoothMain d 30) ∧
    (smoothMain d 30).length = (decimate d (max 1 (d.length / 2000))).length ∧
    (smoothMain d 30).Pairwise (fun a b => a.timeSeconds ≤ b.timeSeconds) ∧
    (smoothMain d 30).length ≤ 3999 := by
  refine ⟨?_, smoothMain_length d 30, ?_, ?_⟩
  · unfold smooth
    rw [if_neg (not_lt.mpr hlen)]
  · have hdec : (decimate d (max 1 (d.length / 2000))).Pairwise
        (fun a b : Pt => a.timeSeconds ≤ b.timeSeconds) :=
      List.Pairwise.sublist (decimate_sublist d _) hsorted
    have h1 : ((decimate d (max 1 (d.length / 2000))).map fun p => p.timeSeconds).Pairwise
        (· ≤ ·) := List.pairwise_map.mpr hdec
    have h2 : ((smoothMain d 30).map fun q => q.timeSeconds).Pairwise (· ≤ ·) := by
      rw [smoothMain_times]; exact h1
    have h3 : (smoothMain d 30).Pairwise
        (fun a b => a.timeSeconds ≤ b.timeSeconds) := List.pairwise_map.mp h2
    exact h3
  · rw [smoothMain_length]
    by_cases hb : d.length ≤ 3999
    · exact le_trans (List.Sublist.length_le (decimate_sublist d _)) hb
    · push_neg at hb
      have hr : max 1 (d.length / 2000) = d.length / 2000 :=
        max_eq_right (by omega)
      rw [hr, decimate_length _ _ (by omega)]
      have hk2 : 2 ≤ d.length / 2000 := by omega
      have hn : d.length ≤ 2000 * (d.length / 2000) + 1999 := by omega
      have hb2 : d.length + d.length / 2000 - 1 ≤ 3000 * (d.length / 2000) := by omega
      calc (d.length + d.length / 2000 - 1) / (d.length / 2000)
          ≤ 3000 * (d.length / 2000) / (d.length / 2000) := Nat.div_le_div_right hb2
        _ = 3000 := Nat.mul_div_cancel _ (by omega)
        _ ≤ 3999 := by omega

/-- C7 counterexample: on 3999 samples the stride is 1, every sample is
retained, and the output has 3999 points — far more than approximately
2000. -/
theorem c7_counterexample :
    smooth c7cex 30 = .ok (smoothMain c7cex 30) ∧
    (smoothMain c7cex 30).length = 3999 := by
  have hlen : c7cex.length = 3999 := by
    unfold c7cex; rw [List.length_map, List.length_range]
  constructor
  · unfold smooth
    rw [if_neg (by omega : ¬c7cex.length < 30)]
  · have hmax : max 1 (c7cex.length / 2000) = 1 := by rw [hlen]; norm_num
    rw [smoothMain_length, hmax, decimate_one, hlen]

/-- Witness for C7 at a concrete input. -/
theorem c7_decimation_witness :
    30 ≤ c7wit.length ∧
    c7wit.Pairwise (fun a b => a.timeSeconds ≤ b.timeSeconds) ∧
    (smooth c7wit 30 = .ok (smoothMain c7wit 30) ∧
      (smoothMain c7wit 30).length = (decimate c7wit (max 1 (c7wit.length / 2000))).length ∧
      (smoothMain c7wit 30).Pairwise (fun a b => a.timeSeconds ≤ b.timeSeconds) ∧
      (smoothMain c7wit 30).length ≤ 3999) := by
  have hlen : c7wit.length = 30 := by
    unfold c7wit; rw [List.length_map, List.length_range]
  have h1 : 30 ≤ c7wit.length := le_of_eq hlen.symm
  have h2 : c7wit.Pairwise fun a b => a.timeSeconds ≤ b.timeSeconds := by
    unfold c7wit
    refine List.pairwise_map.mpr ((List.pairwise_lt_range 30).imp ?_)
    intro i j hij
    dsimp only
    exact_mod_cast Nat.le_of_lt hij
  exact ⟨h1, h2, c7_decimation c7wit h1 h2⟩

theorem fbCond1_iff (t1 : ℚ) (m : Sample) (o : Option ℚ) :
    fbCond1 t1 m o = true ↔
      (ltInf |safeNum m.fc - t1| o = true ∧ fbC1 t1 m = true) := by
  simp [fbCond1, fbC1, Bool.and_eq_true]

theorem fbCond2_iff (t1 t2 : ℚ) (m : Sample) (o : Option ℚ) :
    fbCond2 t1 t2 m o = true ↔
      (ltInf |safeNum m.fc - t2| o = true ∧ fbC2 t1 t2 m = true) := by
  simp [fbCond2, fbC2, Bool.and_eq_true, and_assoc]

theorem fbCond3_iff (tp : ℚ) (m : Sample) (o : Option ℚ) :
    fbCond3 tp m o = true ↔
      (ltInf |safeNum m.fc - tp| o = true ∧ fbC3 m = true) := by
  simp [fbCond3, fbC3]

theorem bestStep_inv (target : ℚ) (cond : Sample → Option ℚ → Bool) (C : Sample → Bool)
    (hcond : ∀ m o, cond m o = true ↔
      (ltInf |safeNum m.fc - target| o = true ∧ C m = true))
    (pre : List Sample) (p : Option Sample × Option ℚ) (m : Sample)
    (h : BestInv target C pre p) :
    BestInv target C (pre ++ [m]) (bestStep target cond p m) := by
  obtain ⟨mo, dq⟩ := p
  unfold bestStep
  dsimp only
  by_cases hp : safeNum m.tt ≤ 0
  · rw [if_pos hp]
    cases mo with
    | none =>
        cases dq with
        | none =>
            dsimp [BestInv] at h ⊢
            intro x hx
            rcases List.mem_append.mp hx with hx | hx
            · exact h x hx
            · rcases List.mem_singleton.mp hx with rfl
              rintro ⟨htt, _⟩
              exact absurd htt (not_lt.mpr hp)
        | some dqv => exact h.elim
    | some b =>
        cases dq with
        | none => exact h.elim
        | some dqv =>
            dsimp [BestInv] at h ⊢
            obtain ⟨hbmem, hbq, hdq, hmin⟩ := h
            refine ⟨List.mem_append_left _ hbmem, hbq, hdq, ?_⟩
            intro x hx hxtt hxC
            rcases List.mem_append.mp hx with hx | hx
            · exact hmin x hx hxtt hxC
            · rcases List.mem_singleton.mp hx with rfl
              exact absurd hxtt (not_lt.mpr hp)
  · rw [if_neg hp]
    have htt : 0 < safeNum m.tt := lt_of_not_le hp
    by_cases hc : cond m dq = true
    · rw [if_pos hc]
      obtain ⟨hlt, hC⟩ := (hcond m dq).mp hc
      dsimp [BestInv]
      refine ⟨List.mem_append_right _ (List.mem_singleton_self m), ⟨htt, hC⟩, rfl, ?_⟩
      intro x hx hxtt hxC
      rcases List.mem_append.mp hx with hx | hx
      · cases mo with
        | none =>
            cases dq with
            | none =>
                dsimp [BestInv] at h
                exact absurd ⟨hxtt, hxC⟩ (h x hx)
            | some dqv => exact h.elim
        | some b =>
            cases dq with
            | none => exact h.elim
            | some dqv =>
                dsimp [BestInv] at h
                have hlt' : |safeNum m.fc - target| < dqv := by
                  simpa [ltInf] using hlt
                exact le_trans (le_of_lt hlt') (h.2.2.2 x hx hxtt hxC)
      · rcases List.mem_singleton.mp hx with rfl
        exact le_refl _
    · rw [if_neg hc]
      cases mo with
      | none =>
          cases dq with
          | none =>
              dsimp [BestInv] at h ⊢
              intro x hx
              rcases List.mem_append.mp hx with hx | hx
              · exact h x hx
              · rcases List.mem_singleton.mp hx with rfl
                rintro ⟨_, hCm⟩
                exact hc ((hcond x none).mpr ⟨rfl, hCm⟩)
          | some dqv => exact h.elim
      | some b =>
          cases dq with
          | none => exact h.elim
          | some dqv =>
              dsimp [BestInv] at h ⊢
              obtain ⟨hbmem, hbq, hdq, hmin⟩ := h
              refine ⟨List.mem_append_left _ hbmem, hbq, hdq, ?_⟩
              intro x hx hxtt hxC
              rcases List.mem_append.mp hx with hx | hx
              · exact hmin x hx hxtt hxC
              · rcases List.mem_singleton.mp hx with rfl
                by_contra hlt2
                push_neg at hlt2
                exact hc ((hcond x (some dqv)).mpr ⟨by simpa [ltInf] using hlt2, hxC⟩)

theorem foldl_bestStep_inv (target : ℚ) (cond : Sample → Option ℚ → Bool)
    (C : Sample → Bool)
    (hcond : ∀ m o, cond m o = true ↔
      (ltInf |safeNum m.fc - target| o = true ∧ C m = true)) :
    ∀ (l pre : List Sample) (p : Option Sample × Option ℚ),
      BestInv target C pre p →
      BestInv target C (pre ++ l) (l.foldl (bestStep target cond) p) := by
  intro l
  induction l with
  | nil => intro pre p h; simpa using h
  | cons m l ih =>
      intro pre p h
      rw [List.foldl_cons, show pre ++ m :: l = (pre ++ [m]) ++ l by simp]
      exact ih (pre ++ [m]) _ (bestStep_inv target cond C hcond pre p m h)

theorem fbStep_vt1_proj (t1 t2 tp : ℚ) (st : FBState) (m : Sample) :
    ((fbStep t1 t2 tp st m).vt1Match, (fbStep t1 t2 tp st m).vt1Diff) =
      bestStep t1 (fbCond1 t1) (st.vt1Match, st.vt1Diff) m := by
  unfold fbStep bestStep fbCond1
  dsimp only
  split_ifs <;> rfl

theorem fbStep_vt2_proj (t1 t2 tp : ℚ) (st : FBState) (m : Sample) :
    ((fbStep t1 t2 tp st m).vt2Match, (fbStep t1 t2 tp st m).vt2Diff) =
      bestStep t2 (fbCond2 t1 t2) (st.vt2Match, st.vt2Diff) m := by
  unfold fbStep bestStep fbCond2
  dsimp only
  split_ifs <;> rfl

theorem fbStep_peak_proj (t1 t2 tp : ℚ) (st : FBState) (m : Sample) :
    ((fbStep t1 t2 tp st m).peakMatch, (fbStep t1 t2 tp st m).peakDiff) =
      bestStep tp (fbCond3 tp) (st.peakMatch, st.peakDiff) m := by
  unfold fbStep bestStep fbCond3
  dsimp only
  split_ifs <;> rfl

theorem foldl_fbStep_vt1 (t1 t2 tp : ℚ) (l : List Sample) :
    ∀ st : FBState,
      ((l.foldl (fbStep t1 t2 tp) st).vt1Match, (l.foldl (fbStep t1 t2 tp) st).vt1Diff) =
        l.foldl (bestStep t1 (fbCond1 t1)) (st.vt1Match, st.vt1Diff) := by
  induction l with
  | nil => intro st; rfl
  | cons m l ih =>
      intro st
      rw [List.foldl_cons, List.foldl_cons, ih (fbStep t1 t2 tp st m), fbStep_vt1_proj]

theorem foldl_fbStep_vt2 (t1 t2 tp : ℚ) (l : List Sample) :
    ∀ st : FBState,
      ((l.foldl (fbStep t1 t2 tp) st).vt2Match, (l.foldl (fbStep t1 t2 tp) st).vt2Diff) =
        l.foldl (bestStep t2 (fbCond2 t1 t2)) (st.vt2Match, st.vt2Diff) := by
  induction l with
  | nil => intro st; rfl
  | cons m l ih =>
      intro st
      rw [List.foldl_cons, List.foldl_cons, ih (fbStep t1 t2 tp st m), fbStep_vt2_proj]

theorem foldl_fbStep_peak (t1 t2 tp : ℚ) (l : List Sample) :
    ∀ st : FBState,
      ((l.foldl (fbStep t1 t2 tp) st).peakMatch, (l.foldl (fbStep t1 t2 tp) st).peakDiff) =
        l.foldl (bestStep tp (fbCond3 tp)) (st.peakMatch, st.peakDiff) := by
  induction l with
  | nil => intro st; rfl
  | cons m l ih =>
      intro st
      rw [List.foldl_cons, List.foldl_cons, ih (fbStep t1 t2 tp st m), fbStep_peak_proj]

theorem fbC1_iff_qual (t1 : ℚ) (m : Sample) :
    (0 < safeNum m.tt ∧ fbC1 t1 m = true) ↔ C9qual1 t1 m := by
  simp [fbC1, C9qual1]

theorem fbC2_iff_qual (t1 t2 : ℚ) (m : Sample) :
    (0 < safeNum m.tt ∧ fbC2 t1 t2 m = true) ↔ C9qual2 t1 t2 m := by
  simp [fbC2, C9qual2, and_assoc]

theorem fbC3_iff_qual (m : Sample) :
    (0 < safeNum m.tt ∧ fbC3 m = true) ↔ C9qual3 m := by
  simp [fbC3, C9qual3]

/-- Shape analysis of a state satisfying the best-match invariant. -/
theorem BestInv_cases {target : ℚ} {C : Sample → Bool} {l : List Sample}
    {mo : Option Sample} {dq : Option ℚ}
    (h : BestInv target C l (mo, dq)) :
    (mo = none ∧ ∀ m ∈ l, ¬(0 < safeNum m.tt ∧ C m = true)) ∨
    (∃ b, mo = some b ∧ b ∈ l ∧ (0 < safeNum b.tt ∧ C b = true) ∧
      ∀ m ∈ l, 0 < safeNum m.tt → C m = true →
        |safeNum b.fc - target| ≤ |safeNum m.fc - target|) := by
  cases mo with
  | none =>
      cases dq with
      | none => exact Or.inl ⟨rfl, h⟩
      | some _ => exact h.elim
  | some b =>
      cases dq with
      | none => exact h.elim
      | some dqv =>
          obtain ⟨hb, hq, hdq, hmin⟩ := h
          refine Or.inr ⟨b, rfl, hb, hq, ?_⟩
          intro x hx ht hC
          rw [← hdq]
          exact hmin x hx ht hC

/-- Evaluation of `powerFallback` when all its guards hold: the flag and the
three power write-backs in terms of the scan's final state. -/
theorem powerFallback_components (d : TestData)
    (hguard : ((d.measurements.any fun m => m.tt.defined && !m.tt.empty) &&
      d.vt1.fc.truthy && d.vt2.fc.truthy && d.peakVO2.fc.truthy) = true)
    (hlen : 0 < d.measurements.length) :
    ((powerFallback d false).2 =
      ((d.measurements.foldl
          (fbStep (safeNum d.vt1.fc) (safeNum d.vt2.fc) (safeNum d.peakVO2.fc))
          FBState.start).vt1Match.isSome &&
        (d.measurements.foldl
          (fbStep (safeNum d.vt1.fc) (safeNum d.vt2.fc) (safeNum d.peakVO2.fc))
          FBState.start).vt2Match.isSome)) ∧
    ((powerFallback d false).1.vt1.power =
      match (d.measurements.foldl
          (fbStep (safeNum d.vt1.fc) (safeNum d.vt2.fc) (safeNum d.peakVO2.fc))
          FBState.start).vt1Match with
      | some m => JStr.ofRat (safeNum m.tt)
      | none => d.vt1.power) ∧
    ((powerFallback d false).1.vt2.power =
      match (d.measurements.foldl
          (fbStep (safeNum d.vt1.fc) (safeNum d.vt2.fc) (safeNum d.peakVO2.fc))
          FBState.start).vt2Match with
      | some m => JStr.ofRat (safeNum m.tt)
      | none => d.vt2.power) ∧
    ((powerFallback d false).1.peakVO2.power =
      match (d.measurements.foldl
          (fbStep (safeNum d.vt1.fc) (safeNum d.vt2.fc) (safeNum d.peakVO2.fc))
          FBState.start).peakMatch with
      | some m => JStr.ofRat (safeNum m.tt)
      | none => d.peakVO2.power) := by
  unfold powerFallback
  rw [if_pos (by simp only [Bool.not_false, Bool.true_and, decide_eq_true_eq]; exact hlen),
    if_pos hguard]
  dsimp only
  refine ⟨rfl, ?_, ?_, ?_⟩ <;>
    (cases (d.measurements.foldl
        (fbStep (safeNum d.vt1.fc) (safeNum d.vt2.fc) (safeNum d.peakVO2.fc))
        FBState.start).vt1Match <;>
      cases (d.measurements.foldl
          (fbStep (safeNum d.vt1.fc) (safeNum d.vt2.fc) (safeNum d.peakVO2.fc))
          FBState.start).vt2Match <;>
        cases (d.measurements.foldl
            (fbStep (safeNum d.vt1.fc) (safeNum d.vt2.fc) (safeNum d.peakVO2.fc))
            FBState.start).peakMatch <;>
          rfl)

/-- C9: whenever the summary provided no power data, some measurement has a
non-empty power cell, and all three target heart rates are truthy, the
fallback assigns to each of vt1/vt2/peak the power of a qualifying
measurement whose heart rate is closest to that target (subject to the
claimed constraints), and marks power data available exactly when both the
vt1 and the vt2 matches succeed. -/
theorem c9_power_fallback (d : TestData)
    (hTT : (d.measurements.any fun m => m.tt.defined && !m.tt.empty) = true)
    (h1 : d.vt1.fc.truthy = true) (h2 : d.vt2.fc.truthy = true)
    (h3 : d.peakVO2.fc.truthy = true) :
    ((∃ m ∈ d.measurements, C9qual1 (safeNum d.vt1.fc) m) →
      ∃ m ∈ d.measurements, C9qual1 (safeNum d.vt1.fc) m ∧
        (powerFallback d false).1.vt1.power = JStr.ofRat (safeNum m.tt) ∧
        ∀ m2 ∈ d.measurements, C9qual1 (safeNum d.vt1.fc) m2 →
          |safeNum m.fc - safeNum d.vt1.fc| ≤ |safeNum m2.fc - safeNum d.vt1.fc|) ∧
    ((∃ m ∈ d.measurements, C9qual2 (safeNum d.vt1.fc) (safeNum d.vt2.fc) m) →
      ∃ m ∈ d.measurements, C9qual2 (safeNum d.vt1.fc) (safeNum d.vt2.fc) m ∧
        (powerFallback d false).1.vt2.power = JStr.ofRat (safeNum m.tt) ∧
        ∀ m2 ∈ d.measurements, C9qual2 (safeNum d.vt1.fc) (safeNum d.vt2.fc) m2 →
          |safeNum m.fc - safeNum d.vt2.fc| ≤ |safeNum m2.fc - safeNum d.vt2.fc|) ∧
    ((∃ m ∈ d.measurements, C9qual3 m) →
      ∃ m ∈ d.measurements, C9qual3 m ∧
        (powerFallback d false).1.peakVO2.power = JStr.ofRat (safeNum m.tt) ∧
        ∀ m2 ∈ d.measurements, C9qual3 m2 →
          |safeNum m.fc - safeNum d.peakVO2.fc| ≤ |safeNum m2.fc - safeNum d.peakVO2.fc|) ∧
    ((powerFallback d false).2 = true ↔
      (∃ m ∈ d.measurements, C9qual1 (safeNum d.vt1.fc) m) ∧
      (∃ m ∈ d.measurements, C9qual2 (safeNum d.vt1.fc) (safeNum d.vt2.fc) m)) := by
  have hlen : 0 < d.measurements.length := by
    rcases List.any_eq_true.mp hTT with ⟨m, hm, _⟩
    exact List.length_pos.mpr (List.ne_nil_of_mem hm)
  have hguard : ((d.measurements.any fun m => m.tt.defined && !m.tt.empty) &&
      d.vt1.fc.truthy && d.vt2.fc.truthy && d.peakVO2.fc.truthy) = true := by
    rw [hTT, h1, h2, h3]; rfl
  obtain ⟨hflag, hpw1, hpw2, hpw3⟩ := powerFallback_components d hguard hlen
  have hinv1 : BestInv (safeNum d.vt1.fc) (fbC1 (safeNum d.vt1.fc)) d.measurements
      ((d.measurements.foldl
          (fbStep (safeNum d.vt1.fc) (safeNum d.vt2.fc) (safeNum d.peakVO2.fc))
          FBState.start).vt1Match,
        (d.measurements.foldl
          (fbStep (safeNum d.vt1.fc) (safeNum d.vt2.fc) (safeNum d.peakVO2.fc))
          FBState.start).vt1Diff) := by
    rw [foldl_fbStep_vt1]
    simpa using foldl_bestStep_inv _ _ _ (fbCond1_iff (safeNum d.vt1.fc)) d.measurements []
      (none, none) (fun x hx => absurd hx (List.not_mem_nil x))
  have hinv2 : BestInv (safeNum d.vt2.fc) (fbC2 (safeNum d.vt1.fc) (safeNum d.vt2.fc))
      d.measurements
      ((d.measurements.foldl
          (fbStep (safeNum d.vt1.fc) (safeNum d.vt2.fc) (safeNum d.peakVO2.fc))
          FBState.start).vt2Match,
        (d.measurements.foldl
          (fbStep (safeNum d.vt1.fc) (safeNum d.vt2.fc) (safeNum d.peakVO2.fc))
          FBState.start).vt2Diff) := by
    rw [foldl_fbStep_vt2]
    simpa using foldl_bestStep_inv _ _ _
      (fbCond2_iff (safeNum d.vt1.fc) (safeNum d.vt2.fc)) d.measurements []
      (none, none) (fun x hx => absurd hx (List.not_mem_nil x))
  have hinv3 : BestInv (safeNum d.peakVO2.fc) fbC3 d.measurements
      ((d.measurements.foldl
          (fbStep (safeNum d.vt1.fc) (safeNum d.vt2.fc) (safeNum d.peakVO2.fc))
          FBState.start).peakMatch,
        (d.measurements.foldl
          (fbStep (safeNum d.vt1.fc) (safeNum d.vt2.fc) (safeNum d.peakVO2.fc))
          FBState.start).peakDiff) := by
    rw [foldl_fbStep_peak]
    simpa using foldl_bestStep_inv _ _ _ (fbCond3_iff (safeNum d.peakVO2.fc)) d.measurements
      [] (none, none) (fun x hx => absurd hx (List.not_mem_nil x))
  refine ⟨?_, ?_, ?_, ?_⟩
  · rintro ⟨m0, hm0, hq0⟩
    rcases BestInv_cases hinv1 with ⟨_, hall⟩ | ⟨b, hsome, hbmem, hbq, hbmin⟩
    · exact absurd ((fbC1_iff_qual _ m0).mpr hq0) (hall m0 hm0)
    · refine ⟨b, hbmem, (fbC1_iff_qual _ b).mp hbq, ?_, ?_⟩
      · rw [hpw1, hsome]
      · intro m2 hm2 hq2
        exact hbmin m2 hm2 hq2.1 (decide_eq_true hq2.2)
  · rintro ⟨m0, hm0, hq0⟩
    rcases BestInv_cases hinv2 with ⟨_, hall⟩ | ⟨b, hsome, hbmem, hbq, hbmin⟩
    · exact absurd ((fbC2_iff_qual _ _ m0).mpr hq0) (hall m0 hm0)
    · refine ⟨b, hbmem, (fbC2_iff_qual _ _ b).mp hbq, ?_, ?_⟩
      · rw [hpw2, hsome]
      · intro m2 hm2 hq2
        refine hbmin m2 hm2 hq2.1 ?_
        simp only [fbC2, Bool.and_eq_true, decide_eq_true_eq]
        exact ⟨hq2.2.1, hq2.2.2⟩
  · rintro ⟨m0, hm0, hq0⟩
    rcases BestInv_cases hinv3 with ⟨_, hall⟩ | ⟨b, hsome, hbmem, hbq, hbmin⟩
    · exact absurd ((fbC3_iff_qual m0).mpr hq0) (hall m0 hm0)
    · refine ⟨b, hbmem, (fbC3_iff_qual b).mp hbq, ?_, ?_⟩
      · rw [hpw3, hsome]
      · intro m2 hm2 hq2
        exact hbmin m2 hm2 hq2 rfl
  · rw [hflag]
    constructor
    · intro hb
      obtain ⟨hb1, hb2⟩ := Bool.and_eq_true_iff.mp hb
      constructor
      · rcases BestInv_cases hinv1 with ⟨hnone, _⟩ | ⟨b, _, hbmem, hbq, _⟩
        · rw [hnone] at hb1; cases hb1
        · exact ⟨b, hbmem, (fbC1_iff_qual _ b).mp hbq⟩
      · rcases BestInv_cases hinv2 with ⟨hnone, _⟩ | ⟨b, _, hbmem, hbq, _⟩
        · rw [hnone] at hb2; cases hb2
        · exact ⟨b, hbmem, (fbC2_iff_qual _ _ b).mp hbq⟩
    · rintro ⟨⟨ma, hma, hqa⟩, ⟨mb, hmb, hqb⟩⟩
      rcases BestInv_cases hinv1 with ⟨_, hall⟩ | ⟨b, hsome, _, _, _⟩
      · exact absurd ((fbC1_iff_qual _ ma).mpr hqa) (hall ma hma)
      · rcases BestInv_cases hinv2 with ⟨_, hall2⟩ | ⟨b2, hsome2, _, _, _⟩
        · exact absurd ((fbC2_iff_qual _ _ mb).mpr hqb) (hall2 mb hmb)
        · rw [hsome, hsome2]; rfl

/-- Witness for C9 at a concrete input: all guards hold and power data is
marked available because both the vt1 and vt2 matches succeed. -/
theorem c9_power_fallback_witness :
    (c9data.measurements.any fun m => m.tt.defined && !m.tt.empty) = true ∧
    c9data.vt1.fc.truthy = true ∧ c9data.vt2.fc.truthy = true ∧
    c9data.peakVO2.fc.truthy = true ∧
    (powerFallback c9data false).2 = true := by
  refine ⟨by decide, by decide, by decide, by decide, ?_⟩
  refine ((c9_power_fallback c9data (by decide) (by decide) (by decide)
    (by decide)).2.2.2).mpr ?_
  constructor
  · exact ⟨⟨.ofRat 118, .ofRat 150⟩, by decide,
      by norm_num [C9qual1, safeNum, c9data, JStr.ofRat]⟩
  · exact ⟨⟨.ofRat 149, .ofRat 210⟩, by decide,
      by norm_num [C9qual2, safeNum, c9data, JStr.ofRat]⟩

end TCP
